import Mathlib

/-!
Verification of the `SimpleDataTool` query engine
(`src/python/simple_data_tool.py`).

The four record collections are shallowly embedded as Lean structures and
lists; Python `dict`s (which preserve insertion order) are embedded as
association lists updated in place; Python `float` arithmetic is idealised
as exact rational arithmetic (`ℚ`); operations that can raise a Python
exception are embedded in `Except String`, the error carrying the
exception's name.
-/

namespace SimpleDataToolSpec

/-- An agent record.  Fields not read by any verified query are omitted. -/
structure Agent where
  id : Int
  state : String
  secondary_language : String
deriving DecidableEq, Repr

/-- A claim handler record; only its `id` is ever read. -/
structure ClaimHandler where
  id : Int
deriving DecidableEq, Repr

/-- A claim record.  `agent_assigned_id` and `estimate_cost` may be JSON
`null`, embedded as `none`.  (An altogether absent key behaves like `null`
everywhere except through `dict.get` defaults; the record model treats the
keys as always present.) -/
structure Claim where
  id : Int
  disaster_id : Int
  claim_handler_assigned_id : Int
  agent_assigned_id : Option Int
  estimate_cost : Option ℚ
  severity_rating : Int
  status : String
deriving DecidableEq, Repr

/-- A disaster record.  Dates are ISO-format strings, compared
lexicographically exactly as Python compares `str`. -/
structure Disaster where
  id : Int
  state : String
  declared_date : String
  end_date : String
deriving DecidableEq, Repr

/-- The four collections held by the `SimpleDataTool` instance
(`self.__agent_data`, `self.__claim_handler_data`, `self.__claim_data`,
`self.__disaster_data`). -/
structure SimpleDataTool where
  agent_data : List Agent
  claim_handler_data : List ClaimHandler
  claim_data : List Claim
  disaster_data : List Disaster
deriving DecidableEq

/-! ### Python `dict` as an insertion-ordered association list -/

variable {α : Type} {β : Type}

/-- Lookup in a Python dict: `d[k]` / `k in d`. -/
def pyFind [DecidableEq α] (k : α) : List (α × β) → Option β
  | [] => none
  | p :: rest => if p.1 = k then some p.2 else pyFind k rest

/-- Assignment `d[k] = v` on a Python dict: updates the entry in place when
the key is present, otherwise appends it (dicts preserve insertion order). -/
def pySet [DecidableEq α] (k : α) (v : β) : List (α × β) → List (α × β)
  | [] => [(k, v)]
  | p :: rest => if p.1 = k then (k, v) :: rest else p :: pySet k v rest

/-- The counting idiom `if k in d: d[k] += 1 else: d[k] = 1`. -/
def pyIncr [DecidableEq α] (m : List (α × Nat)) (k : α) : List (α × Nat) :=
  match pyFind k m with
  | some v => pySet k (v + 1) m
  | none => pySet k 1 m

/-- Python `max` over a non-empty sequence of `Nat`s; `none` models the
`ValueError` raised on an empty sequence. -/
def pyMax : List Nat → Option Nat
  | [] => none
  | x :: xs => some (xs.foldl max x)

/-- Python `min` over a non-empty sequence of `Nat`s; `none` models the
`ValueError` raised on an empty sequence. -/
def pyMin : List Nat → Option Nat
  | [] => none
  | x :: xs => some (xs.foldl min x)

/-- The list of distinct elements of `ls` in order of first occurrence:
the key order of a Python dict built by counting `ls` left to right. -/
def dedupF [DecidableEq α] : List α → List α
  | [] => []
  | x :: xs => x :: (dedupF xs).filter (fun y => decide (y ≠ x))

/-! ### Rounding -/

/-- Round a rational to the nearest integer, ties to even: the rule of
Python's built-in `round`, idealised to exact arithmetic. -/
def roundHalfEven (q : ℚ) : ℤ :=
  let f := ⌊q⌋
  let r := q - f
  if r < 1 / 2 then f
  else if 1 / 2 < r then f + 1
  else if f % 2 = 0 then f else f + 1

/-- Python `round(x, 2)`: round to the nearest hundredth. -/
def round2 (q : ℚ) : ℚ := (roundHalfEven (q * 100) : ℚ) / 100

/-! ### CPython `is` on integers -/

/-- CPython's `is` operator applied to two `int` objects of independent
origin (here: a JSON-parsed field versus a caller-supplied argument).
`is` compares object identity, not value; CPython interns exactly the
integers in `[-5, 256]`, so for such operands `a is b` holds precisely when
the values are equal and lie in the interned range. -/
def pyIsInt (a b : Int) : Bool :=
  decide (a = b) && decide (-5 ≤ a) && decide (a ≤ 256)

/-- CPython `x is agent_id` where `x` is an `int`-or-`None` field. -/
def pyIsOptInt : Option Int → Int → Bool
  | some a, b => pyIsInt a b
  | none, _ => false

/-! ### Test Set One -/

/-- Embedding of `get_num_closed_claims` (`simple_data_tool.py` lines 56-62). -/
def get_num_closed_claims (claims : List Claim) : Nat :=
  claims.foldl (fun n c => if c.status = "Closed" then n + 1 else n) 0

/-- Embedding of `get_num_claims_for_claim_handler_id` (lines 64-79). -/
def get_num_claims_for_claim_handler_id (claims : List Claim)
    (claim_handler_id : Int) : Nat :=
  claims.foldl
    (fun n c => if c.claim_handler_assigned_id = claim_handler_id then n + 1 else n) 0

/-- Embedding of `get_num_disasters_for_state` (lines 81-95). -/
def get_num_disasters_for_state (disasters : List Disaster) (state : String) : Nat :=
  disasters.foldl (fun n d => if d.state = state then n + 1 else n) 0

/-! ### Test Set Two -/

/-- One iteration of the summation loop of `get_total_claim_cost_for_disaster`
(lines 112-114): `totalDisasterCost += claim["estimate_cost"]` raises a
`TypeError` when the cost is JSON `null`. -/
def costStep (disaster_id : Int) (acc : ℚ) (c : Claim) : Except String ℚ :=
  if c.disaster_id = disaster_id then
    match c.estimate_cost with
    | some v => .ok (acc + v)
    | none => .error "TypeError: unsupported operand type for +="
  else .ok acc

/-- Embedding of `get_total_claim_cost_for_disaster` (lines 101-118): sums
`estimate_cost` over claims with matching `disaster_id` and returns `None`
(here `some none`) when the total equals `0.0`, otherwise the raw total.
Note the body applies no rounding. -/
def get_total_claim_cost_for_disaster (claims : List Claim)
    (disaster_id : Int) : Except String (Option ℚ) :=
  (claims.foldlM (costStep disaster_id) 0).map
    (fun totalDisasterCost =>
      if totalDisasterCost = 0 then none else some totalDisasterCost)

/-- Embedding of `get_average_claim_cost_for_claim_handler` (lines 120-144). -/
def get_average_claim_cost_for_claim_handler (claims : List Claim)
    (claim_handler_id : Int) : Except String (Option ℚ) :=
  if get_num_claims_for_claim_handler_id claims claim_handler_id = 0 then
    .ok none
  else
    (claims.foldlM
        (fun (acc : ℚ × Nat) (c : Claim) =>
          if c.claim_handler_assigned_id = claim_handler_id then
            match c.estimate_cost with
            | some v => (.ok (acc.1 + v, acc.2 + 1) : Except String (ℚ × Nat))
            | none => .error "TypeError: unsupported operand type for +="
          else .ok acc)
        ((0 : ℚ), (0 : Nat))).map
      (fun (acc : ℚ × Nat) => some (round2 (acc.1 / (acc.2 : ℚ))))

/-- Embedding of `get_state_with_most_disasters` (lines 146-179): count
disasters per state in a dict, take `max` of the values (raising on an empty
collection), keep the tied states, sort alphabetically and take the first. -/
def get_state_with_most_disasters (disasters : List Disaster) :
    Except String String :=
  let state_disaster_count := disasters.foldl (fun m d => pyIncr m d.state) []
  match pyMax (state_disaster_count.map (fun p => p.2)) with
  | none => .error "ValueError: max() arg is an empty sequence"
  | some max_disasters =>
    match List.insertionSort (fun a b => a ≤ b)
        ((state_disaster_count.filter (fun p => decide (p.2 = max_disasters))).map
          (fun p => p.1)) with
    | [] => .error "IndexError: list index out of range"
    | s :: _ => .ok s

/-- Embedding of `get_state_with_least_disasters` (lines 189-218), identical
to the previous query with `min` in place of `max`. -/
def get_state_with_least_disasters (disasters : List Disaster) :
    Except String String :=
  let state_disaster_count := disasters.foldl (fun m d => pyIncr m d.state) []
  match pyMin (state_disaster_count.map (fun p => p.2)) with
  | none => .error "ValueError: min() arg is an empty sequence"
  | some min_disasters =>
    match List.insertionSort (fun a b => a ≤ b)
        ((state_disaster_count.filter (fun p => decide (p.2 = min_disasters))).map
          (fun p => p.1)) with
    | [] => .error "IndexError: list index out of range"
    | s :: _ => .ok s

/-- Embedding of `get_most_spoken_agent_language_by_state` (lines 220-247):
count secondary languages of matching agents in a dict, return `""` on an
empty dict, otherwise the first key (dict insertion order) whose count is
maximal.  The inner `[]` branch mirrors `most_spoken_languages[0]` and is
unreachable, since the max of a non-empty dict is attained by some key. -/
def get_most_spoken_agent_language_by_state (agents : List Agent)
    (state : String) : String :=
  let language_count := agents.foldl
    (fun m a => if a.state = state then pyIncr m a.secondary_language else m) []
  match pyMax (language_count.map (fun p => p.2)) with
  | none => ""
  | some max_count =>
    match (language_count.filter (fun p => decide (p.2 = max_count))).map
        (fun p => p.1) with
    | [] => ""
    | l :: _ => l

/-- Embedding of `get_num_of_open_claims_for_agent_and_severity`
(lines 249-274).  Return value: `some (-1)` is the out-of-range sentinel,
`none` is Python `None`, `some n` a positive count.  The source compares
`claim["agent_assigned_id"] is agent_id` with CPython `is`, embedded by
`pyIsOptInt`. -/
def get_num_of_open_claims_for_agent_and_severity (claims : List Claim)
    (agent_id : Int) (min_severity_rating : Int) : Option Int :=
  if min_severity_rating < 1 ∨ 10 < min_severity_rating then some (-1)
  else
    let num_claims := claims.foldl
      (fun n c =>
        if pyIsOptInt c.agent_assigned_id agent_id then
          if min_severity_rating ≤ c.severity_rating ∧ c.status ≠ "Closed" then
            n + 1
          else n
        else n) (0 : Int)
    if num_claims = 0 then none else some num_claims

/-! ### Test Set Three -/

/-- Embedding of `get_num_disasters_declared_after_end_date` (lines 280-296):
`declared_date > end_date` under Python string comparison. -/
def get_num_disasters_declared_after_end_date (disasters : List Disaster) : Nat :=
  disasters.foldl
    (fun n d => if d.end_date < d.declared_date then n + 1 else n) 0

/-- The dict built by `build_map_of_agents_to_total_claim_cost`: keys are
`agent_assigned_id` values (`none` embeds the Python `None` key), values are
`float`-or-`None`. -/
abbrev AgentCostMap := List (Option Int × Option ℚ)

/-- The initialisation loop of `build_map_of_agents_to_total_claim_cost`
(lines 317-319): every agent id starts at `0`. -/
def initAgentMap (agents : List Agent) : AgentCostMap :=
  agents.foldl (fun m a => pySet (some a.id) (some 0) m) []

/-- One iteration of the claim loop of
`build_map_of_agents_to_total_claim_cost` (lines 322-329):
when the key is present and the cost is not `None`, `+=` the cost (a
`TypeError` when the stored value is `None`); otherwise assign `None`. -/
def buildStep (m : AgentCostMap) (c : Claim) : Except String AgentCostMap :=
  match pyFind c.agent_assigned_id m, c.estimate_cost with
  | some (some v), some cost => .ok (pySet c.agent_assigned_id (some (v + cost)) m)
  | some none, some _ => .error "TypeError: unsupported operand type for +="
  | _, _ => .ok (pySet c.agent_assigned_id none m)

/-- The final rounding loop of `build_map_of_agents_to_total_claim_cost`
(lines 331-333): non-`None` values are rounded to two decimals in place. -/
def roundPass (m : AgentCostMap) : AgentCostMap :=
  m.map (fun p => (p.1, p.2.map round2))

/-- Embedding of `build_map_of_agents_to_total_claim_cost` (lines 298-335). -/
def build_map_of_agents_to_total_claim_cost (agents : List Agent)
    (claims : List Claim) : Except String AgentCostMap :=
  (claims.foldlM buildStep (initAgentMap agents)).map roundPass

/-- Invariant of the dict built by `build_map_of_agents_to_total_claim_cost`:
every key present is either a known agent id or already maps to `None`. -/
def KnownOrNone (agents : List Agent) (m : AgentCostMap) : Prop :=
  ∀ k, (pyFind k m).isSome = true →
    (∃ a ∈ agents, k = some a.id) ∨ pyFind k m = some none

/-! ### Test Set Four and method wrappers

Each Python method reads the private collections and never assigns to them;
its embedding therefore takes the `SimpleDataTool` state and returns it
alongside the result. -/

/-- Embedding of `calculate_disaster_claim_density` (lines 337-352): the
body is empty, so the Python function returns `None` for every input. -/
def calculate_disaster_claim_density (_tool : SimpleDataTool)
    (_disaster_id : Int) : Option ℚ :=
  none

/-- Embedding of `get_top_three_months_with_highest_num_of_claims_desc`
(lines 358-370): the body is `pass`, so the Python function returns `None`. -/
def get_top_three_months_with_highest_num_of_claims_desc
    (_tool : SimpleDataTool) : Option (List String) :=
  none

/-- Method form of `get_num_closed_claims`. -/
def SimpleDataTool.num_closed_claimsM (s : SimpleDataTool) :
    Nat × SimpleDataTool :=
  (get_num_closed_claims s.claim_data, s)

/-- Method form of `get_num_claims_for_claim_handler_id`. -/
def SimpleDataTool.num_claims_for_claim_handler_idM (s : SimpleDataTool)
    (chid : Int) : Nat × SimpleDataTool :=
  (get_num_claims_for_claim_handler_id s.claim_data chid, s)

/-- Method form of `get_num_disasters_for_state`. -/
def SimpleDataTool.num_disasters_for_stateM (s : SimpleDataTool)
    (state : String) : Nat × SimpleDataTool :=
  (get_num_disasters_for_state s.disaster_data state, s)

/-- Method form of `get_total_claim_cost_for_disaster`. -/
def SimpleDataTool.total_claim_cost_for_disasterM (s : SimpleDataTool)
    (did : Int) : Except String (Option ℚ) × SimpleDataTool :=
  (get_total_claim_cost_for_disaster s.claim_data did, s)

/-- Method form of `get_average_claim_cost_for_claim_handler`. -/
def SimpleDataTool.average_claim_cost_for_claim_handlerM (s : SimpleDataTool)
    (chid : Int) : Except String (Option ℚ) × SimpleDataTool :=
  (get_average_claim_cost_for_claim_handler s.claim_data chid, s)

/-- Method form of `get_state_with_most_disasters`. -/
def SimpleDataTool.state_with_most_disastersM (s : SimpleDataTool) :
    Except String String × SimpleDataTool :=
  (get_state_with_most_disasters s.disaster_data, s)

/-- Method form of `get_state_with_least_disasters`. -/
def SimpleDataTool.state_with_least_disastersM (s : SimpleDataTool) :
    Except String String × SimpleDataTool :=
  (get_state_with_least_disasters s.disaster_data, s)

/-- Method form of `get_most_spoken_agent_language_by_state`. -/
def SimpleDataTool.most_spoken_agent_language_by_stateM (s : SimpleDataTool)
    (state : String) : String × SimpleDataTool :=
  (get_most_spoken_agent_language_by_state s.agent_data state, s)

/-- Method form of `get_num_of_open_claims_for_agent_and_severity`. -/
def SimpleDataTool.num_of_open_claims_for_agent_and_severityM
    (s : SimpleDataTool) (aid sev : Int) : Option Int × SimpleDataTool :=
  (get_num_of_open_claims_for_agent_and_severity s.claim_data aid sev, s)

/-- Method form of `get_num_disasters_declared_after_end_date`. -/
def SimpleDataTool.num_disasters_declared_after_end_dateM (s : SimpleDataTool) :
    Nat × SimpleDataTool :=
  (get_num_disasters_declared_after_end_date s.disaster_data, s)

/-- Method form of `build_map_of_agents_to_total_claim_cost`. -/
def SimpleDataTool.map_of_agents_to_total_claim_costM (s : SimpleDataTool) :
    Except String AgentCostMap × SimpleDataTool :=
  (build_map_of_agents_to_total_claim_cost s.agent_data s.claim_data, s)

/-- Method form of `calculate_disaster_claim_density`. -/
def SimpleDataTool.disaster_claim_densityM (s : SimpleDataTool) (did : Int) :
    Option ℚ × SimpleDataTool :=
  (calculate_disaster_claim_density s did, s)

/-- Method form of `get_top_three_months_with_highest_num_of_claims_desc`. -/
def SimpleDataTool.top_three_months_with_highest_num_of_claims_descM
    (s : SimpleDataTool) : Option (List String) × SimpleDataTool :=
  (get_top_three_months_with_highest_num_of_claims_desc s, s)

/-! ### Derived quantities used only to state the claims -/

/-- The sum of `estimate_cost` over claims whose `disaster_id` matches,
reading a `null` cost as `0` (the claims compared against this quantity
always have non-null costs). -/
def matchSum (claims : List Claim) (disaster_id : Int) : ℚ :=
  ((claims.filter (fun c => decide (c.disaster_id = disaster_id))).map
    (fun c => c.estimate_cost.getD 0)).sum

/-- The sum of `estimate_cost` over claims assigned to a given agent id. -/
def agentClaimSum (claims : List Claim) (aid : Int) : ℚ :=
  ((claims.filter (fun c => decide (c.agent_assigned_id = some aid))).map
    (fun c => c.estimate_cost.getD 0)).sum

/-- The languages of the agents in a given state, in scan order. -/
def matchingLangs (agents : List Agent) (state : String) : List String :=
  (agents.filter (fun a => decide (a.state = state))).map
    (fun a => a.secondary_language)

/-! ### Concrete records used in counterexamples and witnesses -/

/-- A claim with the given disaster id, agent id, cost, severity and status;
the remaining fields are fixed. -/
def mkClaim (did : Int) (aid : Option Int) (cost : Option ℚ) (sev : Int)
    (st : String) : Claim :=
  { id := 0, disaster_id := did, claim_handler_assigned_id := 0,
    agent_assigned_id := aid, estimate_cost := cost, severity_rating := sev,
    status := st }

/-- A disaster in the given state with fixed dates. -/
def mkDisaster (i : Int) (st : String) : Disaster :=
  { id := i, state := st, declared_date := "2023-01-01",
    end_date := "2023-01-02" }

/-- An agent with the given id, state and secondary language. -/
def mkAgent (i : Int) (st lang : String) : Agent :=
  { id := i, state := st, secondary_language := lang }

/-! ## Dictionary lemmas -/

theorem pyFind_pySet [DecidableEq α] (k k' : α) (v : β) :
    ∀ m : List (α × β),
      pyFind k' (pySet k v m) = if k' = k then some v else pyFind k' m := by
  intro m
  induction m with
  | nil =>
    by_cases h : k' = k
    · subst h; simp [pySet, pyFind]
    · have h2 : ¬k = k' := fun hh => h hh.symm
      simp [pySet, pyFind, h, h2]
  | cons p rest ih =>
    by_cases hpk : p.1 = k
    · by_cases h : k' = k
      · subst h; simp [pySet, pyFind, hpk]
      · have h2 : ¬k = k' := fun hh => h hh.symm
        have h3 : ¬p.1 = k' := by rw [hpk]; exact h2
        simp [pySet, pyFind, hpk, h, h2, h3]
    · by_cases hpk' : p.1 = k'
      · have h : ¬k' = k := by rw [← hpk']; exact hpk
        simp [pyFind, pySet, hpk, hpk', h]
      · simp [pyFind, pySet, hpk, hpk', ih]

theorem isSome_pyFind_pySet [DecidableEq α] (k k' : α) (v : β)
    (m : List (α × β)) (h : (pyFind k' m).isSome = true) :
    (pyFind k' (pySet k v m)).isSome = true := by
  rw [pyFind_pySet]
  by_cases hk : k' = k <;> simp [hk, h]

/-! ## Lemmas about `get_total_claim_cost_for_disaster` -/

theorem foldlM_costStep (did : Int) :
    ∀ (cs : List Claim) (acc : ℚ),
      (∀ c ∈ cs, c.disaster_id = did → c.estimate_cost.isSome = true) →
      cs.foldlM (costStep did) acc = .ok (acc + matchSum cs did) := by
  intro cs
  induction cs with
  | nil => intro acc _; simp [matchSum, List.foldlM, pure, Except.pure]
  | cons c cs ih =>
    intro acc h
    have hrest : ∀ c' ∈ cs, c'.disaster_id = did →
        c'.estimate_cost.isSome = true :=
      fun c' hc' => h c' (List.mem_cons_of_mem c hc')
    by_cases hc : c.disaster_id = did
    · obtain ⟨v, hv⟩ := Option.isSome_iff_exists.mp
        (h c (List.mem_cons_self c cs) hc)
      simp only [List.foldlM, costStep, hc, if_pos, hv]
      simp only [Except.bind, Bind.bind]
      rw [ih (acc + v) hrest]
      simp [matchSum, List.filter_cons, hc, hv, add_assoc]
    · simp only [List.foldlM, costStep, hc, ite_false]
      simp only [Except.bind, Bind.bind]
      rw [ih acc hrest]
      simp [matchSum, List.filter_cons, hc]

/-! ## Claims -/

/-- C10: with an empty disaster collection, `get_state_with_most_disasters`
and `get_state_with_least_disasters` do not return a value or sentinel: the
`max` (resp. `min`) over the empty dict of per-state counts raises a
`ValueError`, so both operations presuppose at least one loaded disaster. -/
theorem C10_state_queries_raise_on_empty_collection :
    get_state_with_most_disasters [] =
      .error "ValueError: max() arg is an empty sequence" ∧
    get_state_with_least_disasters [] =
      .error "ValueError: min() arg is an empty sequence" :=
  ⟨rfl, rfl⟩

/-- C2 (counter-evidence): `get_total_claim_cost_for_disaster` applies no
rounding.  On two claims for disaster 1 with costs `100.005` and `50.00` it
returns the raw sum `150.005`, which is neither `150.01` (round-half-up)
nor `150.00` (round-half-even, the result of Python's `round`, as the last
conjunct shows), although the method's own docstring promises a result
"rounded to the nearest hundredths place". -/
theorem C2_sum_is_returned_unrounded :
    get_total_claim_cost_for_disaster
        [mkClaim 1 none (some (20001 / 200)) 1 "Open",
         mkClaim 1 none (some 50) 1 "Open"] 1 = .ok (some (30001 / 200)) ∧
    (30001 / 200 : ℚ) ≠ 15001 / 100 ∧
    (30001 / 200 : ℚ) ≠ 150 ∧
    round2 (30001 / 200) = 150 := by
  refine ⟨?_, by norm_num, by norm_num, by norm_num [round2, roundHalfEven]⟩
  simp [get_total_claim_cost_for_disaster, costStep, mkClaim, List.foldlM,
    Except.map, Except.bind, Bind.bind, pure, Except.pure]
  norm_num

/-- C4 (counter-evidence): the loop of
`get_num_of_open_claims_for_agent_and_severity` compares
`claim["agent_assigned_id"] is agent_id` with CPython `is`, which on `int`s
of independent origin holds only for values interned by CPython (the range
`[-5, 256]`).  For `agent_id = 300` and a single open claim assigned to
agent 300 with severity 6, the method returns `None` although exactly one
claim matches by equality; the identical query for agent 25 returns 1, and
out-of-range severities still hit the `-1` sentinel first. -/
theorem C4_identity_comparison_fails_above_interning_range :
    get_num_of_open_claims_for_agent_and_severity
        [mkClaim 1 (some 300) none 6 "Open"] 300 5 = none ∧
    (([mkClaim 1 (some 300) none 6 "Open"].filter
        (fun c => decide (c.agent_assigned_id = some 300 ∧
          c.status ≠ "Closed" ∧ 5 ≤ c.severity_rating))).length = 1) ∧
    get_num_of_open_claims_for_agent_and_severity
        [mkClaim 1 (some 25) none 6 "Open"] 25 5 = some 1 ∧
    get_num_of_open_claims_for_agent_and_severity
        [mkClaim 1 (some 300) none 6 "Open"] 300 0 = some (-1) ∧
    get_num_of_open_claims_for_agent_and_severity
        [mkClaim 1 (some 300) none 6 "Open"] 300 11 = some (-1) := by
  refine ⟨?_, ?_, ?_, ?_, ?_⟩ <;>
    simp [get_num_of_open_claims_for_agent_and_severity, pyIsOptInt, pyIsInt,
      mkClaim]

/-- C9: every query operation is a pure function of the loaded collections:
each method returns the `SimpleDataTool` state unchanged, and calling it a
second time on the state produced by the first call yields the identical
result. -/
theorem C9_queries_pure_and_idempotent (s : SimpleDataTool)
    (chid did aid sev : Int) (st : String) :
    ((s.num_closed_claimsM.2 = s ∧
      (s.num_closed_claimsM.2.num_closed_claimsM).1 = s.num_closed_claimsM.1) ∧
     ((s.num_claims_for_claim_handler_idM chid).2 = s ∧
      ((s.num_claims_for_claim_handler_idM chid).2.num_claims_for_claim_handler_idM
        chid).1 = (s.num_claims_for_claim_handler_idM chid).1) ∧
     ((s.num_disasters_for_stateM st).2 = s ∧
      ((s.num_disasters_for_stateM st).2.num_disasters_for_stateM st).1 =
        (s.num_disasters_for_stateM st).1) ∧
     ((s.total_claim_cost_for_disasterM did).2 = s ∧
      ((s.total_claim_cost_for_disasterM did).2.total_claim_cost_for_disasterM
        did).1 = (s.total_claim_cost_for_disasterM did).1)) ∧
    (((s.average_claim_cost_for_claim_handlerM chid).2 = s ∧
      ((s.average_claim_cost_for_claim_handlerM
        chid).2.average_claim_cost_for_claim_handlerM chid).1 =
        (s.average_claim_cost_for_claim_handlerM chid).1) ∧
     (s.state_with_most_disastersM.2 = s ∧
      (s.state_with_most_disastersM.2.state_with_most_disastersM).1 =
        s.state_with_most_disastersM.1) ∧
     (s.state_with_least_disastersM.2 = s ∧
      (s.state_with_least_disastersM.2.state_with_least_disastersM).1 =
        s.state_with_least_disastersM.1) ∧
     ((s.most_spoken_agent_language_by_stateM st).2 = s ∧
      ((s.most_spoken_agent_language_by_stateM
        st).2.most_spoken_agent_language_by_stateM st).1 =
        (s.most_spoken_agent_language_by_stateM st).1)) ∧
    (((s.num_of_open_claims_for_agent_and_severityM aid sev).2 = s ∧
      ((s.num_of_open_claims_for_agent_and_severityM aid
        sev).2.num_of_open_claims_for_agent_and_severityM aid sev).1 =
        (s.num_of_open_claims_for_agent_and_severityM aid sev).1) ∧
     (s.num_disasters_declared_after_end_dateM.2 = s ∧
      (s.num_disasters_declared_after_end_dateM.2.num_disasters_declared_after_end_dateM).1 =
        s.num_disasters_declared_after_end_dateM.1) ∧
     (s.map_of_agents_to_total_claim_costM.2 = s ∧
      (s.map_of_agents_to_total_claim_costM.2.map_of_agents_to_total_claim_costM).1 =
        s.map_of_agents_to_total_claim_costM.1) ∧
     ((s.disaster_claim_densityM did).2 = s ∧
      ((s.disaster_claim_densityM did).2.disaster_claim_densityM did).1 =
        (s.disaster_claim_densityM did).1) ∧
     (s.top_three_months_with_highest_num_of_claims_descM.2 = s ∧
      (s.top_three_months_with_highest_num_of_claims_descM.2.top_three_months_with_highest_num_of_claims_descM).1 =
        s.top_three_months_with_highest_num_of_claims_descM.1)) :=
  ⟨⟨⟨rfl, rfl⟩, ⟨rfl, rfl⟩, ⟨rfl, rfl⟩, ⟨rfl, rfl⟩⟩,
   ⟨⟨rfl, rfl⟩, ⟨rfl, rfl⟩, ⟨rfl, rfl⟩, ⟨rfl, rfl⟩⟩,
   ⟨⟨rfl, rfl⟩, ⟨rfl, rfl⟩, ⟨rfl, rfl⟩, ⟨rfl, rfl⟩, ⟨rfl, rfl⟩⟩⟩

/-- C3 (counterexample): query operations can raise.
`get_state_with_most_disasters` and `get_state_with_least_disasters` raise a
`ValueError` on an empty disaster collection, and
`build_map_of_agents_to_total_claim_cost` raises a `TypeError` when two
claims with non-null costs reference the same agent id that is absent from
the Agent collection (the first sets the entry to `None`, the second then
executes `None += cost`). -/
theorem C3_operations_can_raise :
    get_state_with_most_disasters [] =
      .error "ValueError: max() arg is an empty sequence" ∧
    get_state_with_least_disasters [] =
      .error "ValueError: min() arg is an empty sequence" ∧
    build_map_of_agents_to_total_claim_cost []
        [mkClaim 1 (some 7) (some 5) 1 "Open",
         mkClaim 2 (some 7) (some 5) 1 "Open"] =
      .error "TypeError: unsupported operand type for +=" := by
  refine ⟨rfl, rfl, ?_⟩
  simp [build_map_of_agents_to_total_claim_cost, buildStep, initAgentMap,
    mkClaim, List.foldlM, Except.map, Except.bind, Bind.bind, pyFind, pySet]

/-- C1: for claims whose matching costs are all non-null (a null cost would
raise a `TypeError` instead), `get_total_claim_cost_for_disaster` returns
the "no data" sentinel `None` if and only if the sum of `estimate_cost`
over claims with the given `disaster_id` is exactly zero — in particular
when no claim matches — and otherwise returns that (unrounded) sum. -/
theorem C1_none_iff_zero_sum (claims : List Claim) (did : Int)
    (h : ∀ c ∈ claims, c.disaster_id = did → c.estimate_cost.isSome = true) :
    (get_total_claim_cost_for_disaster claims did = .ok none ↔
      matchSum claims did = 0) ∧
    (matchSum claims did ≠ 0 →
      get_total_claim_cost_for_disaster claims did =
        .ok (some (matchSum claims did))) := by
  unfold get_total_claim_cost_for_disaster
  rw [foldlM_costStep did claims 0 h, zero_add]
  constructor
  · by_cases hz : matchSum claims did = 0 <;> simp [Except.map, hz]
  · intro hz; simp [Except.map, hz]

/-- Witness for C1 at a single matching claim with cost 5. -/
theorem C1_witness :
    (∀ c ∈ [mkClaim 1 none (some 5) 1 "Open"], c.disaster_id = 1 →
      c.estimate_cost.isSome = true) ∧
    ((get_total_claim_cost_for_disaster
        [mkClaim 1 none (some 5) 1 "Open"] 1 = .ok none ↔
      matchSum [mkClaim 1 none (some 5) 1 "Open"] 1 = 0) ∧
     (matchSum [mkClaim 1 none (some 5) 1 "Open"] 1 ≠ 0 →
      get_total_claim_cost_for_disaster
          [mkClaim 1 none (some 5) 1 "Open"] 1 =
        .ok (some (matchSum [mkClaim 1 none (some 5) 1 "Open"] 1)))) :=
  ⟨by simp [mkClaim],
   C1_none_iff_zero_sum [mkClaim 1 none (some 5) 1 "Open"] 1
     (by simp [mkClaim])⟩

/-! ## Lemmas about `build_map_of_agents_to_total_claim_cost` -/

theorem except_map_ok {ε α' β' : Type} (f : α' → β') (e : Except ε α') (b : β')
    (h : e.map f = .ok b) : ∃ a, e = .ok a ∧ b = f a := by
  cases e with
  | error err => simp [Except.map] at h
  | ok a =>
    refine ⟨a, rfl, ?_⟩
    simp only [Except.map] at h
    exact (Except.ok.inj h).symm

theorem foldlM_except_cons_ok {α' σ : Type} (f : σ → α' → Except String σ)
    (c : α') (cs : List α') (m m₁ : σ)
    (h : (c :: cs).foldlM f m = .ok m₁) :
    ∃ m', f m c = .ok m' ∧ cs.foldlM f m' = .ok m₁ := by
  cases hf : f m c with
  | error e => simp [List.foldlM, hf, Except.bind, Bind.bind] at h
  | ok m' =>
    refine ⟨m', rfl, ?_⟩
    simpa [List.foldlM, hf, Except.bind, Bind.bind] using h

theorem buildStep_ok_shape (m m' : AgentCostMap) (c : Claim)
    (h : buildStep m c = .ok m') :
    ∃ v, m' = pySet c.agent_assigned_id v m := by
  cases hf : pyFind c.agent_assigned_id m with
  | none =>
    simp only [buildStep, hf] at h
    exact ⟨none, (Except.ok.inj h).symm⟩
  | some v0 =>
    cases v0 with
    | none =>
      cases hc : c.estimate_cost with
      | none =>
        simp only [buildStep, hf, hc] at h
        exact ⟨none, (Except.ok.inj h).symm⟩
      | some cost =>
        simp only [buildStep, hf, hc] at h
        exact Except.noConfusion h
    | some v =>
      cases hc : c.estimate_cost with
      | none =>
        simp only [buildStep, hf, hc] at h
        exact ⟨none, (Except.ok.inj h).symm⟩
      | some cost =>
        simp only [buildStep, hf, hc] at h
        exact ⟨some (v + cost), (Except.ok.inj h).symm⟩

theorem buildStep_key_isSome (m m' : AgentCostMap) (c : Claim)
    (h : buildStep m c = .ok m') :
    (pyFind c.agent_assigned_id m').isSome = true := by
  obtain ⟨v, rfl⟩ := buildStep_ok_shape m m' c h
  simp [pyFind_pySet]

theorem buildStep_isSome_mono (m m' : AgentCostMap) (c : Claim)
    (k : Option Int) (hk : (pyFind k m).isSome = true)
    (h : buildStep m c = .ok m') : (pyFind k m').isSome = true := by
  obtain ⟨v, rfl⟩ := buildStep_ok_shape m m' c h
  exact isSome_pyFind_pySet _ _ _ _ hk

theorem buildStep_none_stable (m m' : AgentCostMap) (c : Claim)
    (k : Option Int) (hk : pyFind k m = some none)
    (h : buildStep m c = .ok m') : pyFind k m' = some none := by
  by_cases he : k = c.agent_assigned_id
  · subst he
    cases hc : c.estimate_cost with
    | none =>
      simp only [buildStep, hk, hc] at h
      rw [← Except.ok.inj h, pyFind_pySet]
      simp
    | some cost =>
      simp only [buildStep, hk, hc] at h
      exact Except.noConfusion h
  · obtain ⟨v, rfl⟩ := buildStep_ok_shape m m' c h
    rw [pyFind_pySet, if_neg he]
    exact hk

theorem buildStep_nullcost (m m' : AgentCostMap) (c : Claim)
    (hc : c.estimate_cost = none) (h : buildStep m c = .ok m') :
    pyFind c.agent_assigned_id m' = some none := by
  cases hf : pyFind c.agent_assigned_id m with
  | none =>
    simp only [buildStep, hf, hc] at h
    rw [← Except.ok.inj h, pyFind_pySet]; simp
  | some v0 =>
    cases v0 with
    | none =>
      simp only [buildStep, hf, hc] at h
      rw [← Except.ok.inj h, pyFind_pySet]; simp
    | some w =>
      simp only [buildStep, hf, hc] at h
      rw [← Except.ok.inj h, pyFind_pySet]; simp

theorem buildStep_sets_none (m m' : AgentCostMap) (c : Claim)
    (hnv : ∀ v : ℚ, pyFind c.agent_assigned_id m ≠ some (some v))
    (h : buildStep m c = .ok m') :
    pyFind c.agent_assigned_id m' = some none := by
  cases hf : pyFind c.agent_assigned_id m with
  | none =>
    cases hc : c.estimate_cost with
    | none =>
      simp only [buildStep, hf, hc] at h
      rw [← Except.ok.inj h, pyFind_pySet]; simp
    | some cost =>
      simp only [buildStep, hf, hc] at h
      rw [← Except.ok.inj h, pyFind_pySet]; simp
  | some v0 =>
    cases v0 with
    | none =>
      cases hc : c.estimate_cost with
      | none =>
        simp only [buildStep, hf, hc] at h
        rw [← Except.ok.inj h, pyFind_pySet]; simp
      | some cost =>
        simp only [buildStep, hf, hc] at h
        exact Except.noConfusion h
    | some w => exact absurd hf (hnv w)

theorem buildStep_known (agents : List Agent) (m m' : AgentCostMap)
    (c : Claim) (hP : KnownOrNone agents m) (h : buildStep m c = .ok m') :
    KnownOrNone agents m' := by
  intro k hk
  by_cases he : k = c.agent_assigned_id
  · rw [he]
    cases hf : pyFind c.agent_assigned_id m with
    | none =>
      right
      exact buildStep_sets_none m m' c (by simp [hf]) h
    | some v0 =>
      cases v0 with
      | none =>
        right
        exact buildStep_sets_none m m' c (by simp [hf]) h
      | some w =>
        have hs : (pyFind c.agent_assigned_id m).isSome = true := by simp [hf]
        rcases hP _ hs with hag | hnone
        · exact Or.inl hag
        · rw [hf] at hnone
          exact absurd (Option.some.inj hnone) (by simp)
  · obtain ⟨v, rfl⟩ := buildStep_ok_shape m m' c h
    rw [pyFind_pySet, if_neg he] at hk ⊢
    exact hP k hk

theorem buildStep_unknown (agents : List Agent) (m m' : AgentCostMap)
    (c : Claim) (hP : KnownOrNone agents m)
    (hu : ∀ a ∈ agents, some a.id ≠ c.agent_assigned_id)
    (h : buildStep m c = .ok m') :
    pyFind c.agent_assigned_id m' = some none := by
  cases hf : pyFind c.agent_assigned_id m with
  | none =>
    simp only [buildStep, hf] at h
    rw [← Except.ok.inj h, pyFind_pySet]; simp
  | some v0 =>
    have hs : (pyFind c.agent_assigned_id m).isSome = true := by simp [hf]
    rcases hP _ hs with ⟨a, ha, hk⟩ | hnone
    · exact absurd hk.symm (hu a ha)
    · exact buildStep_none_stable m m' c _ hnone h

theorem buildFold_none_stable (k : Option Int) :
    ∀ (cs : List Claim) (m m₁ : AgentCostMap),
      pyFind k m = some none → cs.foldlM buildStep m = .ok m₁ →
      pyFind k m₁ = some none := by
  intro cs
  induction cs with
  | nil =>
    intro m m₁ hk h
    simp only [List.foldlM, pure, Except.pure] at h
    rw [← Except.ok.inj h]
    exact hk
  | cons c cs ih =>
    intro m m₁ hk h
    obtain ⟨m', hstep, hrest⟩ := foldlM_except_cons_ok _ c cs m m₁ h
    exact ih m' m₁ (buildStep_none_stable m m' c k hk hstep) hrest

theorem buildFold_isSome_mono (k : Option Int) :
    ∀ (cs : List Claim) (m m₁ : AgentCostMap),
      (pyFind k m).isSome = true → cs.foldlM buildStep m = .ok m₁ →
      (pyFind k m₁).isSome = true := by
  intro cs
  induction cs with
  | nil =>
    intro m m₁ hk h
    simp only [List.foldlM, pure, Except.pure] at h
    rw [← Except.ok.inj h]
    exact hk
  | cons c cs ih =>
    intro m m₁ hk h
    obtain ⟨m', hstep, hrest⟩ := foldlM_except_cons_ok _ c cs m m₁ h
    exact ih m' m₁ (buildStep_isSome_mono m m' c k hk hstep) hrest

theorem buildFold_known (agents : List Agent) :
    ∀ (cs : List Claim) (m m₁ : AgentCostMap),
      KnownOrNone agents m → cs.foldlM buildStep m = .ok m₁ →
      KnownOrNone agents m₁ := by
  intro cs
  induction cs with
  | nil =>
    intro m m₁ hP h
    simp only [List.foldlM, pure, Except.pure] at h
    rw [← Except.ok.inj h]
    exact hP
  | cons c cs ih =>
    intro m m₁ hP h
    obtain ⟨m', hstep, hrest⟩ := foldlM_except_cons_ok _ c cs m m₁ h
    exact ih m' m₁ (buildStep_known agents m m' c hP hstep) hrest

theorem buildFold_unknown (agents : List Agent) :
    ∀ (cs : List Claim) (m m₁ : AgentCostMap),
      KnownOrNone agents m → cs.foldlM buildStep m = .ok m₁ →
      ∀ c ∈ cs, (∀ a ∈ agents, some a.id ≠ c.agent_assigned_id) →
        pyFind c.agent_assigned_id m₁ = some none := by
  intro cs
  induction cs with
  | nil => intro m m₁ _ _ c hc; exact absurd hc (List.not_mem_nil c)
  | cons c0 cs ih =>
    intro m m₁ hP h c hc hu
    obtain ⟨m', hstep, hrest⟩ := foldlM_except_cons_ok _ c0 cs m m₁ h
    rcases List.mem_cons.mp hc with rfl | hmem
    · exact buildFold_none_stable _ cs m' m₁
        (buildStep_unknown agents m m' c hP hu hstep) hrest
    · exact ih m' m₁ (buildStep_known agents m m' c0 hP hstep) hrest c hmem hu

theorem buildFold_nullcost :
    ∀ (cs : List Claim) (m m₁ : AgentCostMap),
      cs.foldlM buildStep m = .ok m₁ →
      ∀ c ∈ cs, c.estimate_cost = none →
        pyFind c.agent_assigned_id m₁ = some none := by
  intro cs
  induction cs with
  | nil => intro m m₁ _ c hc; exact absurd hc (List.not_mem_nil c)
  | cons c0 cs ih =>
    intro m m₁ h c hc hnull
    obtain ⟨m', hstep, hrest⟩ := foldlM_except_cons_ok _ c0 cs m m₁ h
    rcases List.mem_cons.mp hc with rfl | hmem
    · exact buildFold_none_stable _ cs m' m₁
        (buildStep_nullcost m m' c hnull hstep) hrest
    · exact ih m' m₁ hrest c hmem hnull

theorem buildFold_sum (aid : Int) :
    ∀ (cs : List Claim) (m m₁ : AgentCostMap) (v : ℚ),
      (∀ c ∈ cs, c.agent_assigned_id = some aid →
        c.estimate_cost.isSome = true) →
      pyFind (some aid) m = some (some v) →
      cs.foldlM buildStep m = .ok m₁ →
      pyFind (some aid) m₁ = some (some (v + agentClaimSum cs aid)) := by
  intro cs
  induction cs with
  | nil =>
    intro m m₁ v _ hv h
    simp only [List.foldlM, pure, Except.pure] at h
    rw [← Except.ok.inj h, hv]
    simp [agentClaimSum]
  | cons c cs ih =>
    intro m m₁ v hall hv h
    obtain ⟨m', hstep, hrest⟩ := foldlM_except_cons_ok _ c cs m m₁ h
    have hrestall : ∀ c' ∈ cs, c'.agent_assigned_id = some aid →
        c'.estimate_cost.isSome = true :=
      fun c' h' => hall c' (List.mem_cons_of_mem c h')
    by_cases hc : c.agent_assigned_id = some aid
    · obtain ⟨cost, hcost⟩ := Option.isSome_iff_exists.mp
        (hall c (List.mem_cons_self c cs) hc)
      simp only [buildStep, hc, hv, hcost] at hstep
      have hfind' : pyFind (some aid) m' = some (some (v + cost)) := by
        rw [← Except.ok.inj hstep, pyFind_pySet]
        simp
      rw [ih m' m₁ (v + cost) hrestall hfind' hrest]
      simp [agentClaimSum, List.filter_cons, hc, hcost, add_assoc]
    · have hfind' : pyFind (some aid) m' = some (some v) := by
        obtain ⟨w, rfl⟩ := buildStep_ok_shape m m' c hstep
        rw [pyFind_pySet, if_neg (fun hh => hc hh.symm)]
        exact hv
      rw [ih m' m₁ v hrestall hfind' hrest]
      simp [agentClaimSum, List.filter_cons, hc]

theorem initFold_keeps (i : Int) :
    ∀ (ags : List Agent) (m : AgentCostMap),
      pyFind (some i) m = some (some 0) →
      pyFind (some i)
        (ags.foldl (fun m a => pySet (some a.id) (some 0) m) m) =
        some (some 0) := by
  intro ags
  induction ags with
  | nil => intro m h; simpa using h
  | cons a ags ih =>
    intro m h
    simp only [List.foldl]
    apply ih
    rw [pyFind_pySet]
    by_cases he : (some i : Option Int) = some a.id <;> simp [he, h]

theorem initFold_mem :
    ∀ (ags : List Agent) (m : AgentCostMap) (a : Agent), a ∈ ags →
      pyFind (some a.id)
        (ags.foldl (fun m a => pySet (some a.id) (some 0) m) m) =
        some (some 0) := by
  intro ags
  induction ags with
  | nil => intro m a ha; exact absurd ha (List.not_mem_nil a)
  | cons b ags ih =>
    intro m a ha
    simp only [List.foldl]
    rcases List.mem_cons.mp ha with rfl | hmem
    · apply initFold_keeps
      rw [pyFind_pySet]
      simp
    · exact ih _ a hmem

theorem initFold_keys :
    ∀ (ags : List Agent) (m : AgentCostMap) (k : Option Int),
      (pyFind k
        (ags.foldl (fun m a => pySet (some a.id) (some 0) m) m)).isSome =
        true →
      (pyFind k m).isSome = true ∨ ∃ a ∈ ags, k = some a.id := by
  intro ags
  induction ags with
  | nil => intro m k h; exact Or.inl (by simpa using h)
  | cons b ags ih =>
    intro m k h
    simp only [List.foldl] at h
    rcases ih _ k h with hm | ⟨a, ha, rfl⟩
    · rw [pyFind_pySet] at hm
      by_cases he : k = some b.id
      · exact Or.inr ⟨b, List.mem_cons_self b ags, he⟩
      · rw [if_neg he] at hm
        exact Or.inl hm
    · exact Or.inr ⟨a, List.mem_cons_of_mem b ha, rfl⟩

theorem initAgentMap_known (agents : List Agent) :
    KnownOrNone agents (initAgentMap agents) := by
  intro k hk
  rcases initFold_keys agents [] k hk with hm | hex
  · simp [pyFind] at hm
  · exact Or.inl hex

theorem pyFind_roundPass (k : Option Int) :
    ∀ m : AgentCostMap,
      pyFind k (roundPass m) =
        (pyFind k m).map (fun v => v.map round2) := by
  intro m
  induction m with
  | nil => simp [roundPass, pyFind]
  | cons p rest ih =>
    simp only [roundPass] at ih ⊢
    by_cases he : p.1 = k <;> simp [pyFind, he, ih]

theorem round2_zero : round2 0 = 0 := by
  norm_num [round2, roundHalfEven]

theorem build_map_ok (agents : List Agent) (claims : List Claim)
    (m : AgentCostMap)
    (h : build_map_of_agents_to_total_claim_cost agents claims = .ok m) :
    ∃ m₁, claims.foldlM buildStep (initAgentMap agents) = .ok m₁ ∧
      m = roundPass m₁ :=
  except_map_ok roundPass _ m h

/-- C5: when `build_map_of_agents_to_total_claim_cost` completes normally,
the returned dict has every id from the Agent collection as a key; an agent
id referenced by no claim maps to `0` (not the `None` sentinel); and an
agent all of whose referencing claims carry non-null costs maps to the sum
of those costs rounded to two decimals. -/
theorem C5_agent_map_totals (agents : List Agent) (claims : List Claim)
    (m : AgentCostMap)
    (h : build_map_of_agents_to_total_claim_cost agents claims = .ok m) :
    (∀ a ∈ agents, (pyFind (some a.id) m).isSome = true) ∧
    (∀ a ∈ agents,
      claims.filter (fun c => decide (c.agent_assigned_id = some a.id)) =
        [] →
      pyFind (some a.id) m = some (some 0)) ∧
    (∀ a ∈ agents,
      (∀ c ∈ claims, c.agent_assigned_id = some a.id →
        c.estimate_cost.isSome = true) →
      pyFind (some a.id) m =
        some (some (round2 (agentClaimSum claims a.id)))) := by
  obtain ⟨m₁, hfold, rfl⟩ := build_map_ok agents claims m h
  refine ⟨?_, ?_, ?_⟩
  · intro a ha
    rw [pyFind_roundPass]
    have hinit : pyFind (some a.id) (initAgentMap agents) = some (some 0) :=
      initFold_mem agents [] a ha
    have hs := buildFold_isSome_mono (some a.id) claims _ m₁
      (by simp [hinit]) hfold
    obtain ⟨v, hv⟩ := Option.isSome_iff_exists.mp hs
    simp [hv]
  · intro a ha hempty
    have hnone : ∀ c ∈ claims, c.agent_assigned_id = some a.id →
        c.estimate_cost.isSome = true := by
      intro c hc hca
      exfalso
      have hmem : c ∈ claims.filter
          (fun c => decide (c.agent_assigned_id = some a.id)) := by
        rw [List.mem_filter]
        exact ⟨hc, by simp [hca]⟩
      rw [hempty] at hmem
      exact absurd hmem (List.not_mem_nil c)
    have hsum0 : agentClaimSum claims a.id = 0 := by
      unfold agentClaimSum
      rw [hempty]
      simp
    have hfin := buildFold_sum a.id claims _ m₁ 0 hnone
      (initFold_mem agents [] a ha) hfold
    rw [pyFind_roundPass, hfin, hsum0]
    simp [round2_zero]
  · intro a ha hcosts
    have hfin := buildFold_sum a.id claims _ m₁ 0 hcosts
      (initFold_mem agents [] a ha) hfold
    rw [pyFind_roundPass, hfin, zero_add]
    simp

/-- Witness for C5: two agents, one claim of cost 5 assigned to agent 1. -/
theorem C5_witness :
    (build_map_of_agents_to_total_claim_cost
        [mkAgent 1 "Ohio" "Spanish", mkAgent 2 "Iowa" "Hindi"]
        [mkClaim 1 (some 1) (some 5) 1 "Open"] =
      .ok [(some 1, some 5), (some 2, some 0)]) ∧
    ((∀ a ∈ [mkAgent 1 "Ohio" "Spanish", mkAgent 2 "Iowa" "Hindi"],
        (pyFind (some a.id)
          ([(some 1, some 5), (some 2, some 0)] : AgentCostMap)).isSome =
          true) ∧
     (∀ a ∈ [mkAgent 1 "Ohio" "Spanish", mkAgent 2 "Iowa" "Hindi"],
        [mkClaim 1 (some 1) (some 5) 1 "Open"].filter
            (fun c => decide (c.agent_assigned_id = some a.id)) = [] →
        pyFind (some a.id)
          ([(some 1, some 5), (some 2, some 0)] : AgentCostMap) =
          some (some 0)) ∧
     (∀ a ∈ [mkAgent 1 "Ohio" "Spanish", mkAgent 2 "Iowa" "Hindi"],
        (∀ c ∈ [mkClaim 1 (some 1) (some 5) 1 "Open"],
          c.agent_assigned_id = some a.id →
          c.estimate_cost.isSome = true) →
        pyFind (some a.id)
          ([(some 1, some 5), (some 2, some 0)] : AgentCostMap) =
          some (some (round2
            (agentClaimSum [mkClaim 1 (some 1) (some 5) 1 "Open"] a.id))))) :=
  have hb : build_map_of_agents_to_total_claim_cost
      [mkAgent 1 "Ohio" "Spanish", mkAgent 2 "Iowa" "Hindi"]
      [mkClaim 1 (some 1) (some 5) 1 "Open"] =
      .ok [(some 1, some 5), (some 2, some 0)] := by
    simp only [build_map_of_agents_to_total_claim_cost, initAgentMap,
      buildStep, roundPass, mkAgent, mkClaim, List.foldlM, List.foldl,
      Except.map, Except.bind, Bind.bind, pure, Except.pure, pySet, pyFind,
      List.map]
    norm_num [round2, roundHalfEven]
  ⟨hb, C5_agent_map_totals _ _ _ hb⟩

/-- C6: when `build_map_of_agents_to_total_claim_cost` completes normally,
a claim whose `agent_assigned_id` is not the id of any agent in the Agent
collection leaves that unknown id in the returned dict as a new key with
value `None`, and a claim carrying a null `estimate_cost` leaves its
assigned key's value as `None` rather than a number. -/
theorem C6_unknown_agent_and_null_cost_become_none (agents : List Agent)
    (claims : List Claim) (m : AgentCostMap)
    (h : build_map_of_agents_to_total_claim_cost agents claims = .ok m) :
    (∀ c ∈ claims, (∀ a ∈ agents, some a.id ≠ c.agent_assigned_id) →
      pyFind c.agent_assigned_id m = some none) ∧
    (∀ c ∈ claims, c.estimate_cost = none →
      pyFind c.agent_assigned_id m = some none) := by
  obtain ⟨m₁, hfold, rfl⟩ := build_map_ok agents claims m h
  constructor
  · intro c hc hu
    have hfin := buildFold_unknown agents claims _ m₁
      (initAgentMap_known agents) hfold c hc hu
    rw [pyFind_roundPass, hfin]
    rfl
  · intro c hc hnull
    have hfin := buildFold_nullcost claims _ m₁ hfold c hc hnull
    rw [pyFind_roundPass, hfin]
    rfl

/-- Witness for C6: one known agent; a claim referencing unknown agent 9
and a null-cost claim referencing known agent 1. -/
theorem C6_witness :
    (build_map_of_agents_to_total_claim_cost [mkAgent 1 "Ohio" "Spanish"]
        [mkClaim 1 (some 9) (some 5) 1 "Open",
         mkClaim 2 (some 1) none 1 "Open"] =
      .ok [(some 1, none), (some 9, none)]) ∧
    ((∀ c ∈ [mkClaim 1 (some 9) (some 5) 1 "Open",
             mkClaim 2 (some 1) none 1 "Open"],
        (∀ a ∈ [mkAgent 1 "Ohio" "Spanish"],
          some a.id ≠ c.agent_assigned_id) →
        pyFind c.agent_assigned_id
          ([(some 1, none), (some 9, none)] : AgentCostMap) = some none) ∧
     (∀ c ∈ [mkClaim 1 (some 9) (some 5) 1 "Open",
             mkClaim 2 (some 1) none 1 "Open"],
        c.estimate_cost = none →
        pyFind c.agent_assigned_id
          ([(some 1, none), (some 9, none)] : AgentCostMap) = some none)) :=
  have hb : build_map_of_agents_to_total_claim_cost
      [mkAgent 1 "Ohio" "Spanish"]
      [mkClaim 1 (some 9) (some 5) 1 "Open",
       mkClaim 2 (some 1) none 1 "Open"] =
      .ok [(some 1, none), (some 9, none)] := by
    simp [build_map_of_agents_to_total_claim_cost, initAgentMap, buildStep,
      roundPass, mkAgent, mkClaim, List.foldlM, List.foldl, Except.map,
      Except.bind, Bind.bind, pure, Except.pure, pySet, pyFind, List.map]
  ⟨hb, C6_unknown_agent_and_null_cost_become_none _ _ _ hb⟩

/-! ## Lemmas about Python `max`/`min` over value sequences -/

theorem le_foldl_max : ∀ (xs : List Nat) (x : Nat), x ≤ xs.foldl max x := by
  intro xs
  induction xs with
  | nil => intro x; simp
  | cons y ys ih =>
    intro x
    exact le_trans (Nat.le_max_left x y) (ih (max x y))

theorem mem_le_foldl_max :
    ∀ (xs : List Nat) (x b : Nat), b ∈ xs → b ≤ xs.foldl max x := by
  intro xs
  induction xs with
  | nil => intro x b hb; exact absurd hb (List.not_mem_nil b)
  | cons y ys ih =>
    intro x b hb
    rcases List.mem_cons.mp hb with rfl | hb'
    · exact le_trans (Nat.le_max_right x b) (le_foldl_max ys (max x b))
    · exact ih (max x y) b hb'

theorem foldl_max_mem :
    ∀ (xs : List Nat) (x : Nat), xs.foldl max x = x ∨ xs.foldl max x ∈ xs := by
  intro xs
  induction xs with
  | nil => intro x; exact Or.inl rfl
  | cons y ys ih =>
    intro x
    rcases ih (max x y) with heq | hmem
    · rcases max_choice x y with hx | hy
      · exact Or.inl (by rw [List.foldl_cons, heq, hx])
      · refine Or.inr ?_
        rw [List.foldl_cons, heq, hy]
        exact List.mem_cons_self y ys
    · exact Or.inr (List.mem_cons_of_mem y hmem)

theorem pyMax_eq_none : ∀ xs : List Nat, pyMax xs = none ↔ xs = [] := by
  intro xs
  cases xs <;> simp [pyMax]

theorem pyMax_spec (xs : List Nat) (mx : Nat) (h : pyMax xs = some mx) :
    mx ∈ xs ∧ ∀ b ∈ xs, b ≤ mx := by
  cases xs with
  | nil => exact absurd h (by simp [pyMax])
  | cons x ys =>
    obtain rfl : ys.foldl max x = mx := Option.some.inj h
    refine ⟨?_, ?_⟩
    · rcases foldl_max_mem ys x with heq | hmem
      · rw [heq]; exact List.mem_cons_self x ys
      · exact List.mem_cons_of_mem x hmem
    · intro b hb
      rcases List.mem_cons.mp hb with rfl | hb'
      · exact le_foldl_max ys b
      · exact mem_le_foldl_max ys x b hb'

theorem foldl_min_le : ∀ (xs : List Nat) (x : Nat), xs.foldl min x ≤ x := by
  intro xs
  induction xs with
  | nil => intro x; simp
  | cons y ys ih =>
    intro x
    exact le_trans (ih (min x y)) (Nat.min_le_left x y)

theorem foldl_min_le_mem :
    ∀ (xs : List Nat) (x b : Nat), b ∈ xs → xs.foldl min x ≤ b := by
  intro xs
  induction xs with
  | nil => intro x b hb; exact absurd hb (List.not_mem_nil b)
  | cons y ys ih =>
    intro x b hb
    rcases List.mem_cons.mp hb with rfl | hb'
    · exact le_trans (foldl_min_le ys (min x b)) (Nat.min_le_right x b)
    · exact ih (min x y) b hb'

theorem foldl_min_mem :
    ∀ (xs : List Nat) (x : Nat), xs.foldl min x = x ∨ xs.foldl min x ∈ xs := by
  intro xs
  induction xs with
  | nil => intro x; exact Or.inl rfl
  | cons y ys ih =>
    intro x
    rcases ih (min x y) with heq | hmem
    · rcases min_choice x y with hx | hy
      · exact Or.inl (by rw [List.foldl_cons, heq, hx])
      · refine Or.inr ?_
        rw [List.foldl_cons, heq, hy]
        exact List.mem_cons_self y ys
    · exact Or.inr (List.mem_cons_of_mem y hmem)

theorem pyMin_eq_none : ∀ xs : List Nat, pyMin xs = none ↔ xs = [] := by
  intro xs
  cases xs <;> simp [pyMin]

theorem pyMin_spec (xs : List Nat) (mn : Nat) (h : pyMin xs = some mn) :
    mn ∈ xs ∧ ∀ b ∈ xs, mn ≤ b := by
  cases xs with
  | nil => exact absurd h (by simp [pyMin])
  | cons x ys =>
    obtain rfl : ys.foldl min x = mn := Option.some.inj h
    refine ⟨?_, ?_⟩
    · rcases foldl_min_mem ys x with heq | hmem
      · rw [heq]; exact List.mem_cons_self x ys
      · exact List.mem_cons_of_mem x hmem
    · intro b hb
      rcases List.mem_cons.mp hb with rfl | hb'
      · exact foldl_min_le ys b
      · exact foldl_min_le_mem ys x b hb'

/-! ## Lemmas about the counting dict built by `pyIncr` -/

theorem mem_dedupF [DecidableEq α] :
    ∀ (ls : List α) (a : α), a ∈ dedupF ls ↔ a ∈ ls := by
  intro ls
  induction ls with
  | nil => intro a; simp [dedupF]
  | cons x ls ih =>
    intro a
    by_cases hax : a = x
    · simp [dedupF, hax]
    · simp [dedupF, List.mem_filter, hax, ih]

theorem dedupF_nodup [DecidableEq α] : ∀ ls : List α, (dedupF ls).Nodup := by
  intro ls
  induction ls with
  | nil => simp [dedupF]
  | cons x ls ih =>
    refine List.Nodup.cons ?_ (List.Nodup.filter _ ih)
    intro hx
    have := (List.mem_filter.mp hx).2
    simp at this

theorem dedupF_ne_nil [DecidableEq α] (ls : List α) (h : ls ≠ []) :
    dedupF ls ≠ [] := by
  cases ls with
  | nil => exact absurd rfl h
  | cons x ls => simp [dedupF]

theorem dedupF_cons [DecidableEq α] (y : α) (zs : List α) :
    dedupF (y :: zs) = y :: (dedupF zs).filter (fun z => decide (z ≠ y)) :=
  rfl

theorem dedupF_append [DecidableEq α] (x : α) :
    ∀ ls : List α,
      dedupF (ls ++ [x]) =
        if x ∈ ls then dedupF ls else dedupF ls ++ [x] := by
  intro ls
  induction ls with
  | nil => simp [dedupF]
  | cons y ls ih =>
    rw [List.cons_append, dedupF_cons, ih]
    by_cases hx : x ∈ ls
    · rw [if_pos hx, if_pos (List.mem_cons_of_mem y hx), dedupF_cons]
    · rw [if_neg hx]
      by_cases hxy : x = y
      · subst hxy
        rw [if_pos (List.mem_cons_self x ls), dedupF_cons,
          List.filter_append]
        simp
      · have hmem : x ∉ y :: ls := by
          intro hc
          rcases List.mem_cons.mp hc with h1 | h2
          · exact hxy h1
          · exact hx h2
        rw [if_neg hmem, dedupF_cons, List.filter_append, List.cons_append]
        simp [hxy]

theorem pyFind_map_graph [DecidableEq α] (f : α → β) :
    ∀ (l : List α) (x : α),
      pyFind x (l.map (fun k => (k, f k))) =
        if x ∈ l then some (f x) else none := by
  intro l
  induction l with
  | nil => intro x; simp [pyFind]
  | cons k l ih =>
    intro x
    by_cases hkx : k = x
    · subst hkx
      simp [pyFind]
    · have : ¬x = k := fun h => hkx h.symm
      simp [pyFind, hkx, ih, this]

theorem pySet_map_graph [DecidableEq α] (f : α → β) (x : α) (w : β) :
    ∀ l : List α, l.Nodup → x ∈ l →
      pySet x w (l.map (fun k => (k, f k))) =
        l.map (fun k => (k, if k = x then w else f k)) := by
  intro l
  induction l with
  | nil => intro _ hx; exact absurd hx (List.not_mem_nil x)
  | cons k l ih =>
    intro hnd hx
    by_cases hkx : k = x
    · subst hkx
      have hk : k ∉ l := (List.nodup_cons.mp hnd).1
      have htail : l.map (fun a => (a, f a)) =
          l.map (fun a => (a, if a = k then w else f a)) := by
        refine List.map_congr_left ?_
        intro a ha
        have hak : ¬a = k := fun h => hk (h ▸ ha)
        simp [hak]
      simp only [List.map_cons, pySet]
      simp [← htail]
    · have hxl : x ∈ l := by
        rcases List.mem_cons.mp hx with h1 | h2
        · exact absurd h1.symm hkx
        · exact h2
      simp only [List.map_cons, pySet]
      rw [if_neg hkx, if_neg hkx, ih (List.nodup_cons.mp hnd).2 hxl]

theorem pySet_append_graph [DecidableEq α] (f : α → β) (x : α) (w : β) :
    ∀ l : List α, x ∉ l →
      pySet x w (l.map (fun k => (k, f k))) =
        l.map (fun k => (k, f k)) ++ [(x, w)] := by
  intro l
  induction l with
  | nil => intro _; simp [pySet]
  | cons k l ih =>
    intro hx
    have hkx : ¬k = x := fun h => hx (h ▸ List.mem_cons_self k l)
    have hxl : x ∉ l := fun h => hx (List.mem_cons_of_mem k h)
    simp only [List.map_cons, pySet, if_neg hkx, List.cons_append]
    rw [ih hxl]

theorem countF_eq [DecidableEq α] :
    ∀ ls : List α,
      ls.foldl pyIncr ([] : List (α × Nat)) =
        (dedupF ls).map (fun k => (k, ls.count k)) := by
  intro ls
  induction ls using List.reverseRecOn with
  | nil => simp [dedupF]
  | append_singleton ls x ih =>
    rw [List.foldl_append, ih]
    simp only [List.foldl_cons, List.foldl_nil]
    by_cases hx : x ∈ ls
    · have hxd : x ∈ dedupF ls := (mem_dedupF ls x).mpr hx
      have hfind : pyFind x ((dedupF ls).map (fun k => (k, ls.count k))) =
          some (ls.count x) := by
        rw [pyFind_map_graph]
        simp [hxd]
      simp only [pyIncr, hfind]
      rw [pySet_map_graph _ x _ (dedupF ls) (dedupF_nodup ls) hxd,
        dedupF_append, if_pos hx]
      refine List.map_congr_left ?_
      intro k hk
      by_cases hkx : k = x
      · subst hkx
        simp [List.count_append, List.count_cons]
      · simp [hkx, List.count_append, List.count_cons,
          fun h : x = k => hkx h.symm]
    · have hxd : x ∉ dedupF ls := fun h => hx ((mem_dedupF ls x).mp h)
      have hfind : pyFind x ((dedupF ls).map (fun k => (k, ls.count k))) =
          none := by
        rw [pyFind_map_graph]
        simp [hxd]
      simp only [pyIncr, hfind]
      rw [pySet_append_graph _ x _ (dedupF ls) hxd, dedupF_append,
        if_neg hx, List.map_append]
      congr 1
      · refine List.map_congr_left ?_
        intro k hk
        have hkx : ¬k = x := fun h =>
          hx (h ▸ (mem_dedupF ls k).mp hk)
        have hxk : ¬x = k := fun h => hkx h.symm
        simp [List.count_append, List.count_cons, hxk]
      · have : ls.count x = 0 := List.count_eq_zero.mpr hx
        simp [List.count_append, this]

theorem dedupF_pairwise_indexOf [DecidableEq α] :
    ∀ ls : List α,
      (dedupF ls).Pairwise
        (fun a b => ls.indexOf a < ls.indexOf b) := by
  intro ls
  induction ls with
  | nil => simp [dedupF]
  | cons x ls ih =>
    refine List.Pairwise.cons ?_ ?_
    · intro b hb
      have hbx : ¬b = x := by
        have := (List.mem_filter.mp hb).2
        simpa using this
      have hxb : x ≠ b := fun h => hbx h.symm
      rw [List.indexOf_cons_self, List.indexOf_cons_ne ls hxb]
      exact Nat.succ_pos _
    · refine List.Pairwise.imp_of_mem ?_
        (List.Pairwise.filter _ ih)
      intro a b ha hb hab
      have hxa : x ≠ a := fun h => by
        have := (List.mem_filter.mp ha).2
        simp [← h] at this
      have hxb : x ≠ b := fun h => by
        have := (List.mem_filter.mp hb).2
        simp [← h] at this
      rw [List.indexOf_cons_ne ls hxa, List.indexOf_cons_ne ls hxb]
      exact Nat.succ_lt_succ hab

theorem insertionSort_le_head (l : List String) (s : String)
    (rest : List String)
    (h : List.insertionSort (fun a b => a ≤ b) l = s :: rest) :
    s ∈ l ∧ ∀ t ∈ l, s ≤ t := by
  have hperm := List.perm_insertionSort (fun a b : String => a ≤ b) l
  rw [h] at hperm
  have hsorted := List.sorted_insertionSort (fun a b : String => a ≤ b) l
  rw [h] at hsorted
  constructor
  · exact hperm.mem_iff.mp (List.mem_cons_self s rest)
  · intro t ht
    have htm : t ∈ s :: rest := hperm.mem_iff.mpr ht
    rcases List.mem_cons.mp htm with rfl | h2
    · exact le_refl t
    · exact List.rel_of_sorted_cons hsorted t h2

theorem disaster_counts_eq (ds : List Disaster) :
    ds.foldl (fun m d => pyIncr m d.state) [] =
      (dedupF (ds.map Disaster.state)).map
        (fun k => (k, (ds.map Disaster.state).count k)) := by
  rw [← countF_eq, List.foldl_map]

theorem most_disasters_spec (ds : List Disaster) (h : ds ≠ []) :
    ∃ s, get_state_with_most_disasters ds = .ok s ∧
      s ∈ ds.map Disaster.state ∧
      (∀ t ∈ ds.map Disaster.state,
        (ds.map Disaster.state).count t ≤ (ds.map Disaster.state).count s) ∧
      (∀ t ∈ ds.map Disaster.state,
        (ds.map Disaster.state).count t = (ds.map Disaster.state).count s →
          s ≤ t) := by
  have hne : ds.map Disaster.state ≠ [] := by
    intro hp
    exact h (List.map_eq_nil_iff.mp hp)
  have hdlne : dedupF (ds.map Disaster.state) ≠ [] := dedupF_ne_nil _ hne
  have hdef : get_state_with_most_disasters ds =
      (match pyMax ((ds.foldl (fun m d => pyIncr m d.state) []).map
          (fun p => p.2)) with
       | none => Except.error "ValueError: max() arg is an empty sequence"
       | some max_disasters =>
         match List.insertionSort (fun a b => a ≤ b)
             (((ds.foldl (fun m d => pyIncr m d.state) []).filter
               (fun p => decide (p.2 = max_disasters))).map (fun p => p.1))
           with
         | [] => Except.error "IndexError: list index out of range"
         | s :: _ => Except.ok s) := rfl
  rw [disaster_counts_eq] at hdef
  have hvals : ((dedupF (ds.map Disaster.state)).map
      (fun k => (k, (ds.map Disaster.state).count k))).map (fun p => p.2) =
      (dedupF (ds.map Disaster.state)).map
        (fun k => (ds.map Disaster.state).count k) := by
    rw [List.map_map]
    rfl
  rw [hvals] at hdef
  cases hmx : pyMax ((dedupF (ds.map Disaster.state)).map
      (fun k => (ds.map Disaster.state).count k)) with
  | none =>
    rw [pyMax_eq_none, List.map_eq_nil_iff] at hmx
    exact absurd hmx hdlne
  | some mx =>
    rw [hmx] at hdef
    have hdef2 : get_state_with_most_disasters ds =
        (match List.insertionSort (fun a b => a ≤ b)
            ((((dedupF (ds.map Disaster.state)).map
              (fun k => (k, (ds.map Disaster.state).count k))).filter
                (fun p => decide (p.2 = mx))).map (fun p => p.1)) with
         | [] => Except.error "IndexError: list index out of range"
         | s :: _ => Except.ok s) := hdef
    have hcand : (((dedupF (ds.map Disaster.state)).map
        (fun k => (k, (ds.map Disaster.state).count k))).filter
          (fun p => decide (p.2 = mx))).map (fun p => p.1) =
        (dedupF (ds.map Disaster.state)).filter
          (fun k => decide ((ds.map Disaster.state).count k = mx)) := by
      rw [List.filter_map, List.map_map]
      rw [show ((fun p : String × Nat => p.1) ∘
          fun k : String => (k, (ds.map Disaster.state).count k)) =
          fun k => k from rfl]
      rw [show ((fun p : String × Nat => decide (p.2 = mx)) ∘
          fun k : String => (k, (ds.map Disaster.state).count k)) =
          fun k => decide ((ds.map Disaster.state).count k = mx) from rfl]
      simp
    rw [hcand] at hdef2
    obtain ⟨hmem_mx, hbound⟩ := pyMax_spec _ mx hmx
    obtain ⟨k₀, hk₀, hk₀mx⟩ := List.mem_map.mp hmem_mx
    have hk₀cand : k₀ ∈ (dedupF (ds.map Disaster.state)).filter
        (fun k => decide ((ds.map Disaster.state).count k = mx)) :=
      List.mem_filter.mpr ⟨hk₀, by simp [hk₀mx]⟩
    cases hsort : List.insertionSort (fun a b => a ≤ b)
        ((dedupF (ds.map Disaster.state)).filter
          (fun k => decide ((ds.map Disaster.state).count k = mx))) with
    | nil =>
      exfalso
      have hperm := List.perm_insertionSort (fun a b : String => a ≤ b)
        ((dedupF (ds.map Disaster.state)).filter
          (fun k => decide ((ds.map Disaster.state).count k = mx)))
      rw [hsort] at hperm
      rw [hperm.symm.eq_nil] at hk₀cand
      exact absurd hk₀cand (List.not_mem_nil k₀)
    | cons s rest =>
      rw [hsort] at hdef2
      obtain ⟨hs_mem_cand, hs_le⟩ := insertionSort_le_head _ s rest hsort
      have hs_dl : s ∈ dedupF (ds.map Disaster.state) :=
        (List.mem_filter.mp hs_mem_cand).1
      have hs_cnt : (ds.map Disaster.state).count s = mx := by
        have := (List.mem_filter.mp hs_mem_cand).2
        simpa using this
      refine ⟨s, hdef2, (mem_dedupF _ s).mp hs_dl, ?_, ?_⟩
      · intro t ht
        have htdl : t ∈ dedupF (ds.map Disaster.state) :=
          (mem_dedupF _ t).mpr ht
        have htv : (ds.map Disaster.state).count t ∈
            (dedupF (ds.map Disaster.state)).map
              (fun k => (ds.map Disaster.state).count k) :=
          List.mem_map.mpr ⟨t, htdl, rfl⟩
        rw [hs_cnt]
        exact hbound _ htv
      · intro t ht htc
        have htdl : t ∈ dedupF (ds.map Disaster.state) :=
          (mem_dedupF _ t).mpr ht
        have htcand : t ∈ (dedupF (ds.map Disaster.state)).filter
            (fun k => decide ((ds.map Disaster.state).count k = mx)) :=
          List.mem_filter.mpr ⟨htdl, by simp [htc, hs_cnt]⟩
        exact hs_le t htcand

theorem least_disasters_spec (ds : List Disaster) (h : ds ≠ []) :
    ∃ s, get_state_with_least_disasters ds = .ok s ∧
      s ∈ ds.map Disaster.state ∧
      (∀ t ∈ ds.map Disaster.state,
        (ds.map Disaster.state).count s ≤ (ds.map Disaster.state).count t) ∧
      (∀ t ∈ ds.map Disaster.state,
        (ds.map Disaster.state).count t = (ds.map Disaster.state).count s →
          s ≤ t) := by
  have hne : ds.map Disaster.state ≠ [] := by
    intro hp
    exact h (List.map_eq_nil_iff.mp hp)
  have hdlne : dedupF (ds.map Disaster.state) ≠ [] := dedupF_ne_nil _ hne
  have hdef : get_state_with_least_disasters ds =
      (match pyMin ((ds.foldl (fun m d => pyIncr m d.state) []).map
          (fun p => p.2)) with
       | none => Except.error "ValueError: min() arg is an empty sequence"
       | some min_disasters =>
         match List.insertionSort (fun a b => a ≤ b)
             (((ds.foldl (fun m d => pyIncr m d.state) []).filter
               (fun p => decide (p.2 = min_disasters))).map (fun p => p.1))
           with
         | [] => Except.error "IndexError: list index out of range"
         | s :: _ => Except.ok s) := rfl
  rw [disaster_counts_eq] at hdef
  have hvals : ((dedupF (ds.map Disaster.state)).map
      (fun k => (k, (ds.map Disaster.state).count k))).map (fun p => p.2) =
      (dedupF (ds.map Disaster.state)).map
        (fun k => (ds.map Disaster.state).count k) := by
    rw [List.map_map]
    rfl
  rw [hvals] at hdef
  cases hmn : pyMin ((dedupF (ds.map Disaster.state)).map
      (fun k => (ds.map Disaster.state).count k)) with
  | none =>
    rw [pyMin_eq_none, List.map_eq_nil_iff] at hmn
    exact absurd hmn hdlne
  | some mn =>
    rw [hmn] at hdef
    have hdef2 : get_state_with_least_disasters ds =
        (match List.insertionSort (fun a b => a ≤ b)
            ((((dedupF (ds.map Disaster.state)).map
              (fun k => (k, (ds.map Disaster.state).count k))).filter
                (fun p => decide (p.2 = mn))).map (fun p => p.1)) with
         | [] => Except.error "IndexError: list index out of range"
         | s :: _ => Except.ok s) := hdef
    have hcand : (((dedupF (ds.map Disaster.state)).map
        (fun k => (k, (ds.map Disaster.state).count k))).filter
          (fun p => decide (p.2 = mn))).map (fun p => p.1) =
        (dedupF (ds.map Disaster.state)).filter
          (fun k => decide ((ds.map Disaster.state).count k = mn)) := by
      rw [List.filter_map, List.map_map]
      rw [show ((fun p : String × Nat => p.1) ∘
          fun k : String => (k, (ds.map Disaster.state).count k)) =
          fun k => k from rfl]
      rw [show ((fun p : String × Nat => decide (p.2 = mn)) ∘
          fun k : String => (k, (ds.map Disaster.state).count k)) =
          fun k => decide ((ds.map Disaster.state).count k = mn) from rfl]
      simp
    rw [hcand] at hdef2
    obtain ⟨hmem_mn, hbound⟩ := pyMin_spec _ mn hmn
    obtain ⟨k₀, hk₀, hk₀mn⟩ := List.mem_map.mp hmem_mn
    have hk₀cand : k₀ ∈ (dedupF (ds.map Disaster.state)).filter
        (fun k => decide ((ds.map Disaster.state).count k = mn)) :=
      List.mem_filter.mpr ⟨hk₀, by simp [hk₀mn]⟩
    cases hsort : List.insertionSort (fun a b => a ≤ b)
        ((dedupF (ds.map Disaster.state)).filter
          (fun k => decide ((ds.map Disaster.state).count k = mn))) with
    | nil =>
      exfalso
      have hperm := List.perm_insertionSort (fun a b : String => a ≤ b)
        ((dedupF (ds.map Disaster.state)).filter
          (fun k => decide ((ds.map Disaster.state).count k = mn)))
      rw [hsort] at hperm
      rw [hperm.symm.eq_nil] at hk₀cand
      exact absurd hk₀cand (List.not_mem_nil k₀)
    | cons s rest =>
      rw [hsort] at hdef2
      obtain ⟨hs_mem_cand, hs_le⟩ := insertionSort_le_head _ s rest hsort
      have hs_dl : s ∈ dedupF (ds.map Disaster.state) :=
        (List.mem_filter.mp hs_mem_cand).1
      have hs_cnt : (ds.map Disaster.state).count s = mn := by
        have := (List.mem_filter.mp hs_mem_cand).2
        simpa using this
      refine ⟨s, hdef2, (mem_dedupF _ s).mp hs_dl, ?_, ?_⟩
      · intro t ht
        have htdl : t ∈ dedupF (ds.map Disaster.state) :=
          (mem_dedupF _ t).mpr ht
        have htv : (ds.map Disaster.state).count t ∈
            (dedupF (ds.map Disaster.state)).map
              (fun k => (ds.map Disaster.state).count k) :=
          List.mem_map.mpr ⟨t, htdl, rfl⟩
        rw [hs_cnt]
        exact hbound _ htv
      · intro t ht htc
        have htdl : t ∈ dedupF (ds.map Disaster.state) :=
          (mem_dedupF _ t).mpr ht
        have htcand : t ∈ (dedupF (ds.map Disaster.state)).filter
            (fun k => decide ((ds.map Disaster.state).count k = mn)) :=
          List.mem_filter.mpr ⟨htdl, by simp [htc, hs_cnt]⟩
        exact hs_le t htcand

theorem buildFold_total_ok (agents : List Agent) :
    ∀ (cs : List Claim) (m : AgentCostMap),
      (∀ a ∈ agents, ∃ v : ℚ, pyFind (some a.id) m = some (some v)) →
      (∀ c ∈ cs, (∃ a ∈ agents, c.agent_assigned_id = some a.id) ∧
        c.estimate_cost.isSome = true) →
      ∃ m₁, cs.foldlM buildStep m = .ok m₁ := by
  intro cs
  induction cs with
  | nil =>
    intro m _ _
    exact ⟨m, by simp [List.foldlM, pure, Except.pure]⟩
  | cons c cs ih =>
    intro m hinv hwf
    obtain ⟨⟨a, ha, hca⟩, hcost⟩ := hwf c (List.mem_cons_self c cs)
    obtain ⟨cost, hcost'⟩ := Option.isSome_iff_exists.mp hcost
    obtain ⟨v, hv⟩ := hinv a ha
    have hstep : buildStep m c =
        .ok (pySet (some a.id) (some (v + cost)) m) := by
      simp only [buildStep, hca, hv, hcost']
    have hinv' : ∀ b ∈ agents, ∃ w : ℚ,
        pyFind (some b.id) (pySet (some a.id) (some (v + cost)) m) =
          some (some w) := by
      intro b hb
      by_cases hab : (some b.id : Option Int) = some a.id
      · exact ⟨v + cost, by rw [pyFind_pySet, if_pos hab]⟩
      · obtain ⟨w, hw⟩ := hinv b hb
        refine ⟨w, ?_⟩
        rw [pyFind_pySet, if_neg hab]
        exact hw
    obtain ⟨m₁, hm₁⟩ := ih (pySet (some a.id) (some (v + cost)) m)
      hinv' (fun c' h' => hwf c' (List.mem_cons_of_mem c h'))
    refine ⟨m₁, ?_⟩
    simp only [List.foldlM, hstep, Except.bind, Bind.bind]
    exact hm₁

/-- C7: on a non-empty disaster collection,
`get_state_with_most_disasters` returns the alphabetically first state
among those whose disaster count is maximal, and
`get_state_with_least_disasters` the alphabetically first among those
whose count is minimal. -/
theorem C7_alphabetical_tiebreak (ds : List Disaster) (h : ds ≠ []) :
    (∃ s, get_state_with_most_disasters ds = .ok s ∧
      s ∈ ds.map Disaster.state ∧
      (∀ t ∈ ds.map Disaster.state,
        (ds.map Disaster.state).count t ≤
          (ds.map Disaster.state).count s) ∧
      (∀ t ∈ ds.map Disaster.state,
        (ds.map Disaster.state).count t = (ds.map Disaster.state).count s →
          s ≤ t)) ∧
    (∃ s, get_state_with_least_disasters ds = .ok s ∧
      s ∈ ds.map Disaster.state ∧
      (∀ t ∈ ds.map Disaster.state,
        (ds.map Disaster.state).count s ≤
          (ds.map Disaster.state).count t) ∧
      (∀ t ∈ ds.map Disaster.state,
        (ds.map Disaster.state).count t = (ds.map Disaster.state).count s →
          s ≤ t)) :=
  ⟨most_disasters_spec ds h, least_disasters_spec ds h⟩

/-- Witness for C7 at the tie example of the spec: Delaware and New Jersey
tied for most disasters; "Delaware" wins alphabetically. -/
theorem C7_witness :
    ([mkDisaster 0 "New Jersey", mkDisaster 1 "Delaware",
      mkDisaster 2 "New Jersey", mkDisaster 3 "Delaware"] ≠
        ([] : List Disaster)) ∧
    ((∃ s, get_state_with_most_disasters
        [mkDisaster 0 "New Jersey", mkDisaster 1 "Delaware",
         mkDisaster 2 "New Jersey", mkDisaster 3 "Delaware"] = .ok s ∧
      s ∈ [mkDisaster 0 "New Jersey", mkDisaster 1 "Delaware",
         mkDisaster 2 "New Jersey", mkDisaster 3 "Delaware"].map
           Disaster.state ∧
      (∀ t ∈ [mkDisaster 0 "New Jersey", mkDisaster 1 "Delaware",
         mkDisaster 2 "New Jersey", mkDisaster 3 "Delaware"].map
           Disaster.state,
        ([mkDisaster 0 "New Jersey", mkDisaster 1 "Delaware",
         mkDisaster 2 "New Jersey", mkDisaster 3 "Delaware"].map
           Disaster.state).count t ≤
          ([mkDisaster 0 "New Jersey", mkDisaster 1 "Delaware",
         mkDisaster 2 "New Jersey", mkDisaster 3 "Delaware"].map
           Disaster.state).count s) ∧
      (∀ t ∈ [mkDisaster 0 "New Jersey", mkDisaster 1 "Delaware",
         mkDisaster 2 "New Jersey", mkDisaster 3 "Delaware"].map
           Disaster.state,
        ([mkDisaster 0 "New Jersey", mkDisaster 1 "Delaware",
         mkDisaster 2 "New Jersey", mkDisaster 3 "Delaware"].map
           Disaster.state).count t =
          ([mkDisaster 0 "New Jersey", mkDisaster 1 "Delaware",
         mkDisaster 2 "New Jersey", mkDisaster 3 "Delaware"].map
           Disaster.state).count s → s ≤ t)) ∧
     (∃ s, get_state_with_least_disasters
        [mkDisaster 0 "New Jersey", mkDisaster 1 "Delaware",
         mkDisaster 2 "New Jersey", mkDisaster 3 "Delaware"] = .ok s ∧
      s ∈ [mkDisaster 0 "New Jersey", mkDisaster 1 "Delaware",
         mkDisaster 2 "New Jersey", mkDisaster 3 "Delaware"].map
           Disaster.state ∧
      (∀ t ∈ [mkDisaster 0 "New Jersey", mkDisaster 1 "Delaware",
         mkDisaster 2 "New Jersey", mkDisaster 3 "Delaware"].map
           Disaster.state,
        ([mkDisaster 0 "New Jersey", mkDisaster 1 "Delaware",
         mkDisaster 2 "New Jersey", mkDisaster 3 "Delaware"].map
           Disaster.state).count s ≤
          ([mkDisaster 0 "New Jersey", mkDisaster 1 "Delaware",
         mkDisaster 2 "New Jersey", mkDisaster 3 "Delaware"].map
           Disaster.state).count t) ∧
      (∀ t ∈ [mkDisaster 0 "New Jersey", mkDisaster 1 "Delaware",
         mkDisaster 2 "New Jersey", mkDisaster 3 "Delaware"].map
           Disaster.state,
        ([mkDisaster 0 "New Jersey", mkDisaster 1 "Delaware",
         mkDisaster 2 "New Jersey", mkDisaster 3 "Delaware"].map
           Disaster.state).count t =
          ([mkDisaster 0 "New Jersey", mkDisaster 1 "Delaware",
         mkDisaster 2 "New Jersey", mkDisaster 3 "Delaware"].map
           Disaster.state).count s → s ≤ t))) :=
  ⟨by simp,
   C7_alphabetical_tiebreak
     [mkDisaster 0 "New Jersey", mkDisaster 1 "Delaware",
      mkDisaster 2 "New Jersey", mkDisaster 3 "Delaware"] (by simp)⟩

/-- C3 (amended): with at least one disaster loaded, and every claim
carrying a non-null `estimate_cost` and referencing an agent id present in
the Agent collection, the three operations named by the claim complete
normally, surfacing their outcomes as return values. -/
theorem C3_amended_no_raise_on_wellformed_data (ds : List Disaster)
    (agents : List Agent) (claims : List Claim) (h1 : ds ≠ [])
    (h2 : ∀ c ∈ claims, (∃ a ∈ agents, c.agent_assigned_id = some a.id) ∧
      c.estimate_cost.isSome = true) :
    (∃ s, get_state_with_most_disasters ds = .ok s) ∧
    (∃ s, get_state_with_least_disasters ds = .ok s) ∧
    (∃ m, build_map_of_agents_to_total_claim_cost agents claims = .ok m) := by
  obtain ⟨s1, hs1, -⟩ := most_disasters_spec ds h1
  obtain ⟨s2, hs2, -⟩ := least_disasters_spec ds h1
  have hinv : ∀ a ∈ agents, ∃ v : ℚ,
      pyFind (some a.id) (initAgentMap agents) = some (some v) :=
    fun a ha => ⟨0, initFold_mem agents [] a ha⟩
  obtain ⟨m₁, hm₁⟩ := buildFold_total_ok agents claims (initAgentMap agents)
    hinv h2
  refine ⟨⟨s1, hs1⟩, ⟨s2, hs2⟩, ⟨roundPass m₁, ?_⟩⟩
  unfold build_map_of_agents_to_total_claim_cost
  rw [hm₁]
  rfl

/-- Witness for the amended C3 at a one-disaster, one-agent, one-claim
dataset. -/
theorem C3_witness :
    ([mkDisaster 0 "Ohio"] ≠ ([] : List Disaster)) ∧
    (∀ c ∈ [mkClaim 1 (some 1) (some 5) 1 "Open"],
      (∃ a ∈ [mkAgent 1 "Ohio" "Spanish"],
        c.agent_assigned_id = some a.id) ∧
      c.estimate_cost.isSome = true) ∧
    ((∃ s, get_state_with_most_disasters [mkDisaster 0 "Ohio"] = .ok s) ∧
     (∃ s, get_state_with_least_disasters [mkDisaster 0 "Ohio"] = .ok s) ∧
     (∃ m, build_map_of_agents_to_total_claim_cost
        [mkAgent 1 "Ohio" "Spanish"]
        [mkClaim 1 (some 1) (some 5) 1 "Open"] = .ok m)) :=
  ⟨by simp, by simp [mkClaim, mkAgent],
   C3_amended_no_raise_on_wellformed_data [mkDisaster 0 "Ohio"]
     [mkAgent 1 "Ohio" "Spanish"] [mkClaim 1 (some 1) (some 5) 1 "Open"]
     (by simp) (by simp [mkClaim, mkAgent])⟩

theorem matchingLangs_cons (a : Agent) (ags : List Agent) (state : String) :
    matchingLangs (a :: ags) state =
      if a.state = state then
        a.secondary_language :: matchingLangs ags state
      else matchingLangs ags state := by
  by_cases ha : a.state = state <;>
    simp [matchingLangs, List.filter_cons, ha]

theorem lang_counts_fold (state : String) :
    ∀ (ags : List Agent) (m : List (String × Nat)),
      ags.foldl (fun m a =>
        if a.state = state then pyIncr m a.secondary_language else m) m =
      (matchingLangs ags state).foldl pyIncr m := by
  intro ags
  induction ags with
  | nil => intro m; simp [matchingLangs]
  | cons a ags ih =>
    intro m
    rw [List.foldl_cons, matchingLangs_cons]
    by_cases ha : a.state = state
    · rw [if_pos ha, if_pos ha, List.foldl_cons]
      exact ih (pyIncr m a.secondary_language)
    · rw [if_neg ha, if_neg ha]
      exact ih m

/-- C8: `get_most_spoken_agent_language_by_state` returns the empty string
when no agent's state matches; otherwise it returns a language of maximal
frequency among matching agents whose first occurrence in the left-to-right
scan is earliest among the maximal ones (frequency ties break by
first-encountered order, not alphabetically). -/
theorem C8_language_first_seen_tiebreak (agents : List Agent)
    (state : String) :
    (matchingLangs agents state = [] →
      get_most_spoken_agent_language_by_state agents state = "") ∧
    (matchingLangs agents state ≠ [] →
      ∃ l, get_most_spoken_agent_language_by_state agents state = l ∧
        l ∈ matchingLangs agents state ∧
        (∀ l' ∈ matchingLangs agents state,
          (matchingLangs agents state).count l' ≤
            (matchingLangs agents state).count l) ∧
        (∀ l' ∈ matchingLangs agents state,
          (matchingLangs agents state).count l' =
            (matchingLangs agents state).count l →
          (matchingLangs agents state).indexOf l ≤
            (matchingLangs agents state).indexOf l')) := by
  have hdef : get_most_spoken_agent_language_by_state agents state =
      (match pyMax ((agents.foldl (fun m a =>
          if a.state = state then pyIncr m a.secondary_language else m)
            []).map (fun p => p.2)) with
       | none => ""
       | some max_count =>
         match ((agents.foldl (fun m a =>
             if a.state = state then pyIncr m a.secondary_language else m)
               []).filter
               (fun p => decide (p.2 = max_count))).map (fun p => p.1) with
         | [] => ""
         | l :: _ => l) := rfl
  rw [lang_counts_fold state agents [], countF_eq] at hdef
  constructor
  · intro hempty
    rw [hempty] at hdef
    simpa [dedupF, pyMax] using hdef
  · intro hne
    have hdlne : dedupF (matchingLangs agents state) ≠ [] :=
      dedupF_ne_nil _ hne
    have hvals : ((dedupF (matchingLangs agents state)).map
        (fun k => (k, (matchingLangs agents state).count k))).map
          (fun p => p.2) =
        (dedupF (matchingLangs agents state)).map
          (fun k => (matchingLangs agents state).count k) := by
      rw [List.map_map]
      rfl
    rw [hvals] at hdef
    cases hmx : pyMax ((dedupF (matchingLangs agents state)).map
        (fun k => (matchingLangs agents state).count k)) with
    | none =>
      rw [pyMax_eq_none, List.map_eq_nil_iff] at hmx
      exact absurd hmx hdlne
    | some mx =>
      rw [hmx] at hdef
      have hdef2 : get_most_spoken_agent_language_by_state agents state =
          (match (((dedupF (matchingLangs agents state)).map
              (fun k => (k, (matchingLangs agents state).count k))).filter
                (fun p => decide (p.2 = mx))).map (fun p => p.1) with
           | [] => ""
           | l :: _ => l) := hdef
      have hcand : (((dedupF (matchingLangs agents state)).map
          (fun k => (k, (matchingLangs agents state).count k))).filter
            (fun p => decide (p.2 = mx))).map (fun p => p.1) =
          (dedupF (matchingLangs agents state)).filter
            (fun k => decide ((matchingLangs agents state).count k = mx)) := by
        rw [List.filter_map, List.map_map]
        rw [show ((fun p : String × Nat => p.1) ∘
            fun k : String => (k, (matchingLangs agents state).count k)) =
            fun k => k from rfl]
        rw [show ((fun p : String × Nat => decide (p.2 = mx)) ∘
            fun k : String => (k, (matchingLangs agents state).count k)) =
            fun k => decide ((matchingLangs agents state).count k = mx)
            from rfl]
        simp
      rw [hcand] at hdef2
      obtain ⟨hmem_mx, hbound⟩ := pyMax_spec _ mx hmx
      obtain ⟨k₀, hk₀, hk₀mx⟩ := List.mem_map.mp hmem_mx
      have hk₀cand : k₀ ∈ (dedupF (matchingLangs agents state)).filter
          (fun k => decide ((matchingLangs agents state).count k = mx)) :=
        List.mem_filter.mpr ⟨hk₀, by simp [hk₀mx]⟩
      cases hcl : (dedupF (matchingLangs agents state)).filter
          (fun k => decide ((matchingLangs agents state).count k = mx)) with
      | nil =>
        rw [hcl] at hk₀cand
        exact absurd hk₀cand (List.not_mem_nil k₀)
      | cons l rest =>
        rw [hcl] at hdef2
        have hl_cand : l ∈ (dedupF (matchingLangs agents state)).filter
            (fun k => decide ((matchingLangs agents state).count k = mx)) := by
          rw [hcl]
          exact List.mem_cons_self l rest
        have hl_dl : l ∈ dedupF (matchingLangs agents state) :=
          (List.mem_filter.mp hl_cand).1
        have hl_cnt : (matchingLangs agents state).count l = mx := by
          have := (List.mem_filter.mp hl_cand).2
          simpa using this
        have hpw : (dedupF (matchingLangs agents state)).Pairwise
            (fun a b => (matchingLangs agents state).indexOf a <
              (matchingLangs agents state).indexOf b) :=
          dedupF_pairwise_indexOf (matchingLangs agents state)
        have hpwf := List.Pairwise.filter
          (fun k => decide ((matchingLangs agents state).count k = mx)) hpw
        rw [hcl] at hpwf
        have hhead := (List.pairwise_cons.mp hpwf).1
        refine ⟨l, hdef2, (mem_dedupF _ l).mp hl_dl, ?_, ?_⟩
        · intro l' hl'
          have hl'dl : l' ∈ dedupF (matchingLangs agents state) :=
            (mem_dedupF _ l').mpr hl'
          have hv : (matchingLangs agents state).count l' ∈
              (dedupF (matchingLangs agents state)).map
                (fun k => (matchingLangs agents state).count k) :=
            List.mem_map.mpr ⟨l', hl'dl, rfl⟩
          rw [hl_cnt]
          exact hbound _ hv
        · intro l' hl' hcnt'
          have hl'dl : l' ∈ dedupF (matchingLangs agents state) :=
            (mem_dedupF _ l').mpr hl'
          have hl'cand : l' ∈ (dedupF (matchingLangs agents state)).filter
              (fun k => decide ((matchingLangs agents state).count k = mx)) :=
            List.mem_filter.mpr ⟨hl'dl, by simp [hcnt', hl_cnt]⟩
          rw [hcl] at hl'cand
          rcases List.mem_cons.mp hl'cand with rfl | hrest
          · exact le_refl _
          · exact le_of_lt (hhead l' hrest)

/-- Witness for C8: two Ohio agents with distinct languages tie at
frequency 1; the first-seen language wins. -/
theorem C8_witness :
    (matchingLangs [mkAgent 1 "Ohio" "Spanish", mkAgent 2 "Ohio" "French",
      mkAgent 3 "Iowa" "Hindi"] "Ohio" ≠ []) ∧
    (∃ l, get_most_spoken_agent_language_by_state
        [mkAgent 1 "Ohio" "Spanish", mkAgent 2 "Ohio" "French",
         mkAgent 3 "Iowa" "Hindi"] "Ohio" = l ∧
      l ∈ matchingLangs [mkAgent 1 "Ohio" "Spanish",
        mkAgent 2 "Ohio" "French", mkAgent 3 "Iowa" "Hindi"] "Ohio" ∧
      (∀ l' ∈ matchingLangs [mkAgent 1 "Ohio" "Spanish",
          mkAgent 2 "Ohio" "French", mkAgent 3 "Iowa" "Hindi"] "Ohio",
        (matchingLangs [mkAgent 1 "Ohio" "Spanish",
          mkAgent 2 "Ohio" "French",
          mkAgent 3 "Iowa" "Hindi"] "Ohio").count l' ≤
          (matchingLangs [mkAgent 1 "Ohio" "Spanish",
            mkAgent 2 "Ohio" "French",
            mkAgent 3 "Iowa" "Hindi"] "Ohio").count l) ∧
      (∀ l' ∈ matchingLangs [mkAgent 1 "Ohio" "Spanish",
          mkAgent 2 "Ohio" "French", mkAgent 3 "Iowa" "Hindi"] "Ohio",
        (matchingLangs [mkAgent 1 "Ohio" "Spanish",
          mkAgent 2 "Ohio" "French",
          mkAgent 3 "Iowa" "Hindi"] "Ohio").count l' =
          (matchingLangs [mkAgent 1 "Ohio" "Spanish",
            mkAgent 2 "Ohio" "French",
            mkAgent 3 "Iowa" "Hindi"] "Ohio").count l →
        (matchingLangs [mkAgent 1 "Ohio" "Spanish",
          mkAgent 2 "Ohio" "French",
          mkAgent 3 "Iowa" "Hindi"] "Ohio").indexOf l ≤
          (matchingLangs [mkAgent 1 "Ohio" "Spanish",
            mkAgent 2 "Ohio" "French",
            mkAgent 3 "Iowa" "Hindi"] "Ohio").indexOf l')) :=
  ⟨by decide,
   (C8_language_first_seen_tiebreak
     [mkAgent 1 "Ohio" "Spanish", mkAgent 2 "Ohio" "French",
      mkAgent 3 "Iowa" "Hindi"] "Ohio").2 (by decide)⟩

end SimpleDataToolSpec
